import Mathlib

/-!
# OpenVPN client-certificate issuer

A shallow embedding of the two programs of the repository:

* `generate-ca.js`, the one-off script that creates the demo CA
  (`generateCA` below), and
* `index.js`, the HTTP service whose `generateClientCertificate` signs a
  client certificate with the loaded CA (`generateClientCertificate`,
  `certificateHandler` below).

Everything the programs obtain from outside is an explicit argument: the key
pairs returned by `forge.pki.rsa.generateKeyPair`, every reading of the clock
(`Date.now()`, `new Date()`), the signing and PEM primitives of node-forge and
the offset of local time from UTC.  Console output and written files are
returned as lists.  On a username that is a string node-forge does not throw;
on a repeated `username` parameter (an array) `clientCert.sign` throws and the
`catch` branch of the request handler answers (`certificateRequest`).
-/

namespace CertIssuer

/-! ## Time values of `Date`

The `Date` methods used by the programs (`getFullYear`, `setFullYear`) are
built-ins of the language; they are written here after the abstract operations
of ECMA-262 (section "Date Objects"): time values are integers counting
milliseconds from 1970-01-01T00:00:00Z.  `TimeClip` is left out (the readings of
a system clock are far inside the representable range).  The offset of local
time is a function `tza` of the time value, as `LocalTZA(t, isUTC)` is: it may
change with daylight saving. -/

/-- Milliseconds per day. -/
def msPerDay : Int := 86400000

/-- The operation `Day(t) = floor(t / msPerDay)`. -/
def Day (t : Int) : Int := t / msPerDay

/-- The operation `TimeWithinDay(t) = t modulo msPerDay`. -/
def TimeWithinDay (t : Int) : Int := t % msPerDay

/-- The operation `DaysInYear(y)`. -/
def DaysInYear (y : Int) : Int :=
  if y % 4 ≠ 0 then 365
  else if y % 100 ≠ 0 then 366
  else if y % 400 ≠ 0 then 365
  else 366

/-- The operation `DayFromYear(y)`: the day number of the first day of year `y`. -/
def DayFromYear (y : Int) : Int :=
  365 * (y - 1970) + (y - 1969) / 4 - (y - 1901) / 100 + (y - 1601) / 400

/-- The year containing day number `d`.  ECMA-262 defines it as the largest `y`
with `DayFromYear y ≤ d`; it is computed from an estimate that is off by at most
one (`YearFromDay_spec` and `YearFromDay_unique` show the two agree). -/
def YearFromDay (d : Int) : Int :=
  let y := 1970 + (400 * d) / 146097
  if d < DayFromYear y then y - 1
  else if DayFromYear (y + 1) ≤ d then y + 1
  else y

/-- The operation `YearFromTime(t)`. -/
def YearFromTime (t : Int) : Int := YearFromDay (Day t)

/-- The operation `InLeapYear(t)`: 1 in a leap year, 0 otherwise. -/
def InLeapYear (t : Int) : Int :=
  if DaysInYear (YearFromTime t) = 366 then 1 else 0

/-- The operation `DayWithinYear(t)`. -/
def DayWithinYear (t : Int) : Int := Day t - DayFromYear (YearFromTime t)

/-- Month number (0 = January) of day `d` of a year, `l` being 1 in a leap year. -/
def monthOfDay (d l : Int) : Int :=
  if d < 31 then 0
  else if d < 59 + l then 1
  else if d < 90 + l then 2
  else if d < 120 + l then 3
  else if d < 151 + l then 4
  else if d < 181 + l then 5
  else if d < 212 + l then 6
  else if d < 243 + l then 7
  else if d < 273 + l then 8
  else if d < 304 + l then 9
  else if d < 334 + l then 10
  else 11

/-- Day number within the year of the first day of month `m`. -/
def monthStart (m l : Int) : Int :=
  if m = 0 then 0
  else if m = 1 then 31
  else if m = 2 then 59 + l
  else if m = 3 then 90 + l
  else if m = 4 then 120 + l
  else if m = 5 then 151 + l
  else if m = 6 then 181 + l
  else if m = 7 then 212 + l
  else if m = 8 then 243 + l
  else if m = 9 then 273 + l
  else if m = 10 then 304 + l
  else 334 + l

/-- The operation `MonthFromTime(t)`. -/
def MonthFromTime (t : Int) : Int := monthOfDay (DayWithinYear t) (InLeapYear t)

/-- The operation `DateFromTime(t)`: the day of the month, from 1. -/
def DateFromTime (t : Int) : Int :=
  DayWithinYear t - monthStart (MonthFromTime t) (InLeapYear t) + 1

/-- The operation `MakeDay(year, month, date)`: the day number of the given calendar day; a
`date` past the end of the month runs on into the following month. -/
def MakeDay (year month date : Int) : Int :=
  let ym := year + month / 12
  let mn := month % 12
  let l : Int := if DaysInYear ym = 366 then 1 else 0
  DayFromYear ym + monthStart mn l + date - 1

/-- The operation `MakeDate(day, time)`. -/
def MakeDate (day time : Int) : Int := day * msPerDay + time

/-- The operation `LocalTime(t) = t + LocalTZA(t, true)`; `tza t isUTC` is the
offset of the zone in milliseconds at the time value `t`, read as UTC when
`isUTC` is true and as local time otherwise. -/
def LocalTime (tza : Int → Bool → Int) (t : Int) : Int := t + tza t true

/-- The operation `UTC(t) = t - LocalTZA(t, false)`. -/
def UTC (tza : Int → Bool → Int) (t : Int) : Int := t - tza t false

/-- The method `Date.prototype.getFullYear` on a date with time value `t`. -/
def getFullYear (tza : Int → Bool → Int) (t : Int) : Int := YearFromTime (LocalTime tza t)

/-- The method `Date.prototype.setFullYear(year)` on a date with time value `t`: the new
time value.  Month, day of month and time of day of the local time are kept. -/
def setFullYear (tza : Int → Bool → Int) (t year : Int) : Int :=
  let lt := LocalTime tza t
  UTC tza (MakeDate (MakeDay year (MonthFromTime lt) (DateFromTime lt)) (TimeWithinDay lt))

/-! ## Conversion of numbers to strings

`Date.now().toString()` and the template literal both produce the decimal
representation of an integer. -/

/-- Decimal digits of a natural number, most significant first. -/
def natToDigits (n : Nat) : List Char :=
  if n = 0 then ['0'] else ((Nat.digits 10 n).reverse.map fun d => Char.ofNat (48 + d))

/-- The method `Number.prototype.toString` on an integer. -/
def numberToString (n : Int) : String :=
  if n < 0 then String.mk ('-' :: natToDigits n.natAbs) else String.mk (natToDigits n.natAbs)

/-! ## Data model -/

/-- One attribute of a distinguished name, as passed to `setSubject`. -/
structure Attr where
  name : String
  value : String
  deriving DecidableEq, Repr

/-- An extension object as passed to `setExtensions`: its `name` and the
boolean properties written in the object literal. -/
structure Extension where
  name : String
  props : List (String × Bool)
  deriving DecidableEq, Repr

/-- Truthiness of property `k` of an extension; an absent property is falsy. -/
def Extension.flag (e : Extension) (k : String) : Bool :=
  (e.props.lookup k).getD false

/-- Message digests of node-forge. -/
inductive MdAlg where
  | sha1
  | sha256
  | sha384
  | sha512
  deriving DecidableEq, Repr

/-- The two dates of `cert.validity`, as time values. -/
structure Validity where
  notBefore : Int
  notAfter : Int
  deriving DecidableEq, Repr

/-- Result of `forge.pki.rsa.generateKeyPair`. -/
structure KeyPair (Pub Priv : Type) where
  publicKey : Pub
  privateKey : Priv

/-- A node-forge certificate object. -/
structure Certificate (Pub Sig : Type) where
  version : Nat
  serialNumber : String
  md : Option MdAlg
  signature : Option Sig
  validity : Validity
  issuer : List Attr
  subject : List Attr
  extensions : List Extension
  publicKey : Option Pub

/-- The part of a certificate that is signed (`getTBSCertificate`). -/
structure TBSCertificate (Pub : Type) where
  version : Nat
  serialNumber : String
  signatureMd : Option MdAlg
  issuer : List Attr
  validity : Validity
  subject : List Attr
  publicKey : Option Pub
  extensions : List Extension
  deriving DecidableEq

/-- The node-forge primitives and the process settings the programs rely on. -/
structure Forge (Pub Priv Sig : Type) where
  /-- The function `privateKey.sign` applied to the digest `md` of the encoded TBS. -/
  sign : Priv → MdAlg → TBSCertificate Pub → Sig
  /-- The function `forge.pki.certificateToPem`. -/
  certificateToPem : Certificate Pub Sig → String
  /-- The function `forge.pki.privateKeyToPem`. -/
  privateKeyToPem : Priv → String
  /-- The function `forge.pki.certificateFromPem`. -/
  certificateFromPem : String → Certificate Pub Sig
  /-- The function `forge.pki.privateKeyFromPem`. -/
  privateKeyFromPem : String → Priv
  /-- Offset of local time from UTC in milliseconds, `LocalTZA(t, isUTC)`. -/
  localTZA : Int → Bool → Int

/-- The call `forge.pki.createCertificate()`: an empty version-3 certificate.  (Its two
validity dates are overwritten by both programs before they are read.) -/
def createCertificate {Pub Sig : Type} : Certificate Pub Sig :=
  { version := 2, serialNumber := "00", md := none, signature := none,
    validity := ⟨0, 0⟩, issuer := [], subject := [], extensions := [],
    publicKey := none }

/-- The function `getTBSCertificate(cert)`. -/
def getTBSCertificate {Pub Sig : Type} (c : Certificate Pub Sig) : TBSCertificate Pub :=
  { version := c.version, serialNumber := c.serialNumber, signatureMd := c.md,
    issuer := c.issuer, validity := c.validity, subject := c.subject,
    publicKey := c.publicKey, extensions := c.extensions }

/-- The method `cert.sign(key, md)`: records the digest, then signs the TBS part. -/
def Certificate.sign {Pub Priv Sig : Type} (F : Forge Pub Priv Sig)
    (c : Certificate Pub Sig) (key : Priv) (md : MdAlg) : Certificate Pub Sig :=
  let c1 := { c with md := some md }
  { c1 with signature := some (F.sign key md (getTBSCertificate c1)) }

/-! ## `index.js` -/

/-- The CA credentials held by the process (`caCertPem`, `caCert`, `caKey`). -/
structure CAState (Pub Priv Sig : Type) where
  caCertPem : String
  caCert : Certificate Pub Sig
  caKey : Priv

/-- Lines 11-15: the PEM texts come from the environment variables when these
are set and non-empty, from the files otherwise. -/
def loadCA {Pub Priv Sig : Type} (F : Forge Pub Priv Sig)
    (envCert envKey : Option String) (fileCert fileKey : String) : CAState Pub Priv Sig :=
  let pick : Option String → String → String := fun e f =>
    match e with
    | some s => if s = "" then f else s
    | none => f
  let caCertPem := pick envCert fileCert
  let caKeyPem := pick envKey fileKey
  { caCertPem := caCertPem, caCert := F.certificateFromPem caCertPem,
    caKey := F.privateKeyFromPem caKeyPem }

/-- What one call of `generateClientCertificate` receives from outside. -/
structure IssueInputs (Pub Priv : Type) where
  /-- The pair returned by `generateKeyPair(2048)`. -/
  clientKeys : KeyPair Pub Priv
  /-- The value of `Date.now()` on line 26. -/
  nowSerial : Int
  /-- The time value of `new Date()` on line 29. -/
  nowNotBefore : Int
  /-- The time value of `new Date()` on line 30. -/
  nowNotAfter : Int

/-- Final state of a call of `generateClientCertificate`: the certificate object
built, the two PEM strings returned and the lines written to the console. -/
structure Issued (Pub Sig : Type) where
  clientCert : Certificate Pub Sig
  certificate : String
  privateKey : String
  log : List String

/-- The function `generateClientCertificate(username)` of `index.js`. -/
def generateClientCertificate {Pub Priv Sig : Type} (F : Forge Pub Priv Sig)
    (ca : CAState Pub Priv Sig) (inp : IssueInputs Pub Priv) (username : String) :
    Issued Pub Sig :=
  let log1 := ["Generating key pair for " ++ username ++ "..."]
  let clientKeys := inp.clientKeys
  let c0 : Certificate Pub Sig := createCertificate
  let c1 := { c0 with publicKey := some clientKeys.publicKey }
  let c2 := { c1 with serialNumber := numberToString inp.nowSerial }
  let notBefore := inp.nowNotBefore
  let notAfter := setFullYear F.localTZA inp.nowNotAfter (getFullYear F.localTZA notBefore + 1)
  let c3 := { c2 with validity := ⟨notBefore, notAfter⟩ }
  let c4 := { c3 with subject := [⟨"commonName", username⟩] }
  let c5 := { c4 with issuer := ca.caCert.subject }
  let c6 := { c5 with extensions :=
    [ ⟨"basicConstraints", [("cA", false)]⟩,
      ⟨"keyUsage", [("digitalSignature", true), ("keyEncipherment", true)]⟩,
      ⟨"extKeyUsage", [("clientAuth", true)]⟩ ] }
  let log2 := log1 ++ ["Signing certificate with CA..."]
  let clientCert := c6.sign F ca.caKey MdAlg.sha256
  { clientCert := clientCert,
    certificate := F.certificateToPem clientCert,
    privateKey := F.privateKeyToPem clientKeys.privateKey,
    log := log2 }

/-- The JSON body sent by the `/certificate` handler on success. -/
structure Response where
  success : Bool
  username : String
  certificate : String
  privateKey : String
  caCertificate : String
  deriving DecidableEq, Repr

/-- The expression `req.query.username || fallback`: a missing or empty
username is falsy. -/
def usernameOr (q : Option String) (fallback : String) : String :=
  match q with
  | some u => if u = "" then fallback else u
  | none => fallback

/-- Final state of one run of the `/certificate` handler. -/
structure Handled (Pub Sig : Type) where
  username : String
  issued : Issued Pub Sig
  response : Response
  log : List String

/-- The `try` block of the handler of `GET /certificate` (lines 77-88) for a
username parameter that is missing or one string; node-forge does not throw on
a string.  `query` is `req.query.username`, `now` the value of `Date.now()` on
line 77. -/
def certificateHandler {Pub Priv Sig : Type} (F : Forge Pub Priv Sig)
    (ca : CAState Pub Priv Sig) (now : Int) (inp : IssueInputs Pub Priv)
    (query : Option String) : Handled Pub Sig :=
  let username := usernameOr query ("client_" ++ numberToString now)
  let log1 := ["Generating certificate for: " ++ username]
  let issued := generateClientCertificate F ca inp username
  { username := username,
    issued := issued,
    response :=
      { success := true, username := username, certificate := issued.certificate,
        privateKey := issued.privateKey, caCertificate := ca.caCertPem },
    log := log1 ++ issued.log }

/-- The value of `req.query.username` as Express hands it to the handler:
missing, one string, or an array of strings when the parameter is repeated.
(Nested objects of the extended query syntax are not covered.) -/
inductive QueryValue where
  | absent
  | text (s : String)
  | many (xs : List String)
  deriving DecidableEq, Repr

/-- The JSON body sent with status 500 by the `catch` branch (lines 91-95). -/
structure ErrorResponse where
  success : Bool
  error : String
  message : String
  deriving DecidableEq, Repr

/-- What a request ends with: the status-200 answer of the `try` block, or
the status, body and console lines of the `catch` branch. -/
inductive Outcome (Pub Sig : Type) where
  | sent (h : Handled Pub Sig)
  | failed (status : Nat) (body : ErrorResponse) (log : List String)

/-- The handler of `GET /certificate` (lines 75-97).  An array is truthy, so it
is used as the username as it is: the template literals join its elements with
commas, `generateClientCertificate` writes its two console lines, and
`clientCert.sign` on line 65 throws, because node-forge cannot encode a
commonName that is not a string; `thrown` is the message of that error. -/
def certificateRequest {Pub Priv Sig : Type} (F : Forge Pub Priv Sig)
    (ca : CAState Pub Priv Sig) (now : Int) (inp : IssueInputs Pub Priv) (thrown : String)
    (query : QueryValue) : Outcome Pub Sig :=
  match query with
  | QueryValue.absent => Outcome.sent (certificateHandler F ca now inp none)
  | QueryValue.text u => Outcome.sent (certificateHandler F ca now inp (some u))
  | QueryValue.many xs =>
    let username := String.intercalate "," xs
    Outcome.failed 500
      { success := false, error := "Failed to generate certificate", message := thrown }
      [ "Generating certificate for: " ++ username,
        "Generating key pair for " ++ username ++ "...",
        "Signing certificate with CA...",
        "Error generating certificate: " ++ thrown ]

/-! ## Distinguished names in the encoded certificate

Written after node-forge (`_dnToAsn1`, `asn1.toDer`, `asn1.fromDer`): the value
of an attribute set through `setSubject` without a `valueTagClass` is written
as a PrintableString, one unit per character of the string, with no check and
no conversion.  Only units up to 255 are bytes; a character above U+00FF
leaves an encoding that cannot be read back. -/

/-- The units written for the attribute value `s`, one per character. -/
def dnValueUnits (s : String) : List Nat := s.data.map Char.toNat

/-- Reading an attribute value back from its units. -/
def readDnValue (us : List Nat) : Option String :=
  if us.all (fun u => decide (u < 256)) then some (String.mk (us.map Char.ofNat)) else none

/-- The encoded form of a distinguished name. -/
def encodeName (dn : List Attr) : List (String × List Nat) :=
  dn.map fun a => (a.name, dnValueUnits a.value)

/-- Reading a distinguished name back; there is none when a value cannot be
read. -/
def decodeName : List (String × List Nat) → Option (List Attr)
  | [] => some []
  | (n, us) :: rest =>
    match readDnValue us, decodeName rest with
    | some v, some tl => some (⟨n, v⟩ :: tl)
    | _, _ => none

/-- A sequence of calls of `generateClientCertificate` in one process. -/
def issueAll {Pub Priv Sig : Type} (F : Forge Pub Priv Sig) (ca : CAState Pub Priv Sig)
    (calls : List (IssueInputs Pub Priv × String)) : List (Issued Pub Sig) :=
  calls.map fun c => generateClientCertificate F ca c.1 c.2

/-! ## `generate-ca.js` -/

/-- What one run of the script receives from outside. -/
structure CAInputs (Pub Priv : Type) where
  /-- The pair returned by `generateKeyPair(2048)`. -/
  caKeys : KeyPair Pub Priv
  /-- The time value of `new Date()` on line 18. -/
  nowNotBefore : Int
  /-- The time value of `new Date()` on line 19. -/
  nowNotAfter : Int

/-- Final state of a run of the script: the certificate object, the two PEM
strings, the files written (name and content, in order) and the console lines. -/
structure CARun (Pub Sig : Type) where
  caCert : Certificate Pub Sig
  caCertPem : String
  caKeyPem : String
  files : List (String × String)
  log : List String

/-- The subject of the demo CA (`caAttrs`). -/
def caAttrs : List Attr :=
  [⟨"commonName", "Demo VPN CA"⟩, ⟨"countryName", "IN"⟩,
   ⟨"organizationName", "Demo Organization"⟩]

/-- The value of `'='.repeat(50)`. -/
def rule50 : String := String.mk (List.replicate 50 '=')

/-- The script `generate-ca.js`. -/
def generateCA {Pub Priv Sig : Type} (F : Forge Pub Priv Sig) (inp : CAInputs Pub Priv) :
    CARun Pub Sig :=
  let log1 := ["🔐 Generating Demo CA Certificate and Key...\n",
               "Step 1: Generating 2048-bit RSA key pair..."]
  let caKeys := inp.caKeys
  let log2 := log1 ++ ["Step 2: Creating CA certificate..."]
  let c0 : Certificate Pub Sig := createCertificate
  let c1 := { c0 with publicKey := some caKeys.publicKey }
  let c2 := { c1 with serialNumber := "01" }
  let notBefore := inp.nowNotBefore
  let notAfter := setFullYear F.localTZA inp.nowNotAfter (getFullYear F.localTZA notBefore + 10)
  let c3 := { c2 with validity := ⟨notBefore, notAfter⟩ }
  let c4 := { c3 with subject := caAttrs }
  let c5 := { c4 with issuer := caAttrs }
  let c6 := { c5 with extensions :=
    [ ⟨"basicConstraints", [("cA", true), ("critical", true)]⟩,
      ⟨"keyUsage", [("keyCertSign", true), ("cRLSign", true), ("critical", true)]⟩,
      ⟨"subjectKeyIdentifier", []⟩ ] }
  let log3 := log2 ++ ["Step 3: Self-signing the CA certificate..."]
  let caCert := c6.sign F caKeys.privateKey MdAlg.sha256
  let caCertPem := F.certificateToPem caCert
  let caKeyPem := F.privateKeyToPem caKeys.privateKey
  let log4 := log3 ++ ["Step 4: Saving files...\n"]
  let files := [("demo-ca.crt", caCertPem), ("demo-ca.key", caKeyPem)]
  let log5 := log4 ++
    ["✅ Files created:",
     "   📄 demo-ca.crt (CA Certificate)",
     "   🔑 demo-ca.key (CA Private Key)\n",
     rule50, "CA CERTIFICATE (demo-ca.crt):", rule50, caCertPem,
     rule50, "CA PRIVATE KEY (demo-ca.key):", rule50, caKeyPem,
     "\n📝 Next steps:",
     "1. Update index.js to use these files:",
     "   const caCertPem = fs.readFileSync('./demo-ca.crt', 'utf8');",
     "   const caKeyPem = fs.readFileSync('./demo-ca.key', 'utf8');",
     "2. Run: node index.js",
     "3. Test: curl http://localhost:3000/certificate"]
  { caCert := caCert, caCertPem := caCertPem, caKeyPem := caKeyPem,
    files := files, log := log5 }

/-! ## Observations used by the properties -/

/-- The text `secret` occurs in one of the lines `out`. -/
def Mentions (out : List String) (secret : String) : Prop :=
  ∃ l ∈ out, secret.data <:+: l.data

/-- The date with time value `t` moved `n` calendar years forward. -/
def addYears (tza : Int → Bool → Int) (t n : Int) : Int :=
  setFullYear tza t (getFullYear tza t + n)

/-! ## A small concrete instance

Keys are numbers, a signature is the triple it was made from, PEM texts are
fixed tags.  It serves to run the programs on concrete inputs. -/

/-- Signatures of the concrete instance. -/
abbrev ToySig : Type := Nat × MdAlg × TBSCertificate Nat

/-- Primitives of the concrete instance, in UTC. -/
def toyForge : Forge Nat Nat ToySig :=
  { sign := fun k md tbs => (k, md, tbs),
    certificateToPem := fun c => "CERT " ++ c.serialNumber,
    privateKeyToPem := fun k => "KEY " ++ String.mk (natToDigits k),
    certificateFromPem := fun _ => createCertificate,
    privateKeyFromPem := fun s => s.length,
    localTZA := fun _ _ => 0 }

/-- Signature check of the concrete instance: the public key of private key `k`
is `k` itself. -/
def toyVerify (pub : Nat) (md : MdAlg) (tbs : TBSCertificate Nat) (s : ToySig) : Bool :=
  decide (s = (pub, md, tbs))

/-- A CA of the concrete instance with the subject of the demo CA. -/
def toyCA : CAState Nat Nat ToySig :=
  { caCertPem := "CERT 01",
    caCert := { (createCertificate : Certificate Nat ToySig) with
                  subject := caAttrs, issuer := caAttrs, serialNumber := "01",
                  publicKey := some 7 },
    caKey := 7 }

/-- Readings at the turn of the year 2024/2025: the clock shows
2024-12-31T23:59:59.999Z on lines 26 and 29 and 2025-01-01T00:00:00.000Z on
line 30. -/
def yearEndInputs : IssueInputs Nat Nat :=
  { clientKeys := ⟨11, 11⟩, nowSerial := 1735689599999,
    nowNotBefore := 1735689599999, nowNotAfter := 1735689600000 }

/-- Both readings of the validity dates on the leap day 2024-02-29T12:34:56.789Z. -/
def leapDayInputs : IssueInputs Nat Nat :=
  { clientKeys := ⟨11, 11⟩, nowSerial := 1709210096789,
    nowNotBefore := 1709210096789, nowNotAfter := 1709210096789 }

/-- A second client, served in the millisecond 2025-01-01T00:00:00.000Z. -/
def otherClientInputs : IssueInputs Nat Nat :=
  { clientKeys := ⟨12, 12⟩, nowSerial := 1735689600000,
    nowNotBefore := 1735689600000, nowNotAfter := 1735689600000 }

/-- A run of the CA script at the turn of the year 2024/2025. -/
def yearEndCAInputs : CAInputs Nat Nat :=
  { caKeys := ⟨7, 7⟩, nowNotBefore := 1735689599999, nowNotAfter := 1735689600000 }

/-- The inputs of call number `i` of a loop that issues four certificates per
millisecond, each with a key pair of its own. -/
def tightLoopCall (i : Nat) : IssueInputs Nat Nat × String :=
  ({ clientKeys := ⟨100 + i, 100 + i⟩,
     nowSerial := 1735689600000 + ((i / 4 : Nat) : Int),
     nowNotBefore := 1735689600000 + ((i / 4 : Nat) : Int),
     nowNotAfter := 1735689600000 + ((i / 4 : Nat) : Int) }, "user")

/-- A loop of 1000 calls, four per millisecond. -/
def tightLoop : List (IssueInputs Nat Nat × String) :=
  (List.range 1000).map tightLoopCall

/-- Three calls in three different milliseconds. -/
def slowLoop : List (IssueInputs Nat Nat × String) :=
  [ ({ clientKeys := ⟨11, 11⟩, nowSerial := 1735689600000,
       nowNotBefore := 1735689600000, nowNotAfter := 1735689600000 }, "alice"),
    ({ clientKeys := ⟨12, 12⟩, nowSerial := 1735689600001,
       nowNotBefore := 1735689600001, nowNotAfter := 1735689600001 }, "bob"),
    ({ clientKeys := ⟨13, 13⟩, nowSerial := 1735689600002,
       nowNotBefore := 1735689600002, nowNotAfter := 1735689600002 }, "alice") ]

/-! ## Calendar lemmas -/

theorem DayFromYear_succ (y : Int) : DayFromYear (y + 1) = DayFromYear y + DaysInYear y := by
  unfold DayFromYear DaysInYear
  split_ifs <;> omega

theorem DayFromYear_estimate_lo (d : Int) :
    DayFromYear (1970 + (400 * d) / 146097 - 1) ≤ d := by
  unfold DayFromYear; omega

theorem DayFromYear_estimate_hi (d : Int) :
    d < DayFromYear (1970 + (400 * d) / 146097 + 1 + 1) := by
  unfold DayFromYear; omega

/-- `YearFromDay d` is a year whose day range contains `d`. -/
theorem YearFromDay_spec (d : Int) :
    DayFromYear (YearFromDay d) ≤ d ∧ d < DayFromYear (YearFromDay d + 1) := by
  have hlo := DayFromYear_estimate_lo d
  have hhi := DayFromYear_estimate_hi d
  unfold YearFromDay
  simp only
  split_ifs with h1 h2
  · exact ⟨hlo, by simpa using h1⟩
  · exact ⟨h2, hhi⟩
  · exact ⟨not_lt.mp h1, not_le.mp h2⟩

theorem DayFromYear_mono {a b : Int} (h : a ≤ b) : DayFromYear a ≤ DayFromYear b := by
  unfold DayFromYear; omega

/-- The year whose day range contains `d` is unique. -/
theorem YearFromDay_unique {d y : Int} (h1 : DayFromYear y ≤ d) (h2 : d < DayFromYear (y + 1)) :
    YearFromDay d = y := by
  obtain ⟨s1, s2⟩ := YearFromDay_spec d
  rcases lt_trichotomy (YearFromDay d) y with h | h | h
  · have := DayFromYear_mono (show YearFromDay d + 1 ≤ y by omega)
    omega
  · exact h
  · have := DayFromYear_mono (show y + 1 ≤ YearFromDay d by omega)
    omega

theorem YearFromDay_mono {d e : Int} (h : d ≤ e) : YearFromDay d ≤ YearFromDay e := by
  obtain ⟨s1, _⟩ := YearFromDay_spec d
  obtain ⟨_, s4⟩ := YearFromDay_spec e
  by_contra hlt
  have := DayFromYear_mono (show YearFromDay e + 1 ≤ YearFromDay d by omega)
  omega

theorem Day_mono {s t : Int} (h : s ≤ t) : Day s ≤ Day t := by
  unfold Day msPerDay; omega

theorem YearFromTime_mono {s t : Int} (h : s ≤ t) : YearFromTime s ≤ YearFromTime t :=
  YearFromDay_mono (Day_mono h)

/-- A date in a later calendar year is a later date. -/
theorem lt_of_YearFromTime_lt {s t : Int} (h : YearFromTime s < YearFromTime t) : s < t := by
  by_contra hle
  have := YearFromTime_mono (not_lt.mp hle)
  omega

theorem DaysInYear_leap (y : Int) :
    DaysInYear y = 365 + (if DaysInYear y = 366 then 1 else 0) := by
  unfold DaysInYear
  split_ifs <;> simp_all

theorem leap_cases (y : Int) :
    (if DaysInYear y = 366 then (1 : Int) else 0) = 0 ∨
      (if DaysInYear y = 366 then (1 : Int) else 0) = 1 := by
  split_ifs <;> simp

theorem DayWithinYear_bounds (t : Int) :
    0 ≤ DayWithinYear t ∧ DayWithinYear t < 365 + InLeapYear t := by
  obtain ⟨s1, s2⟩ := YearFromDay_spec (Day t)
  have h := DayFromYear_succ (YearFromDay (Day t))
  have h2 := DaysInYear_leap (YearFromDay (Day t))
  unfold DayWithinYear InLeapYear YearFromTime
  omega

/-- Moving from a year of leap flag `l` to one of leap flag `k` shifts the start
of every month from March on by `k - l`. -/
theorem monthStart_shift (m l k : Int) :
    monthStart m k = monthStart m l + (if m = 0 ∨ m = 1 then 0 else k - l) := by
  unfold monthStart
  by_cases h0 : m = 0
  · subst h0; rfl
  by_cases h1 : m = 1
  · subst h1; rfl
  have hn : ¬ (m = 0 ∨ m = 1) := by omega
  rw [if_neg h0, if_neg h1, if_neg h0, if_neg h1, if_neg hn]
  by_cases h2 : m = 2
  · rw [if_pos h2, if_pos h2]; omega
  rw [if_neg h2, if_neg h2]
  by_cases h3 : m = 3
  · rw [if_pos h3, if_pos h3]; omega
  rw [if_neg h3, if_neg h3]
  by_cases h4 : m = 4
  · rw [if_pos h4, if_pos h4]; omega
  rw [if_neg h4, if_neg h4]
  by_cases h5 : m = 5
  · rw [if_pos h5, if_pos h5]; omega
  rw [if_neg h5, if_neg h5]
  by_cases h6 : m = 6
  · rw [if_pos h6, if_pos h6]; omega
  rw [if_neg h6, if_neg h6]
  by_cases h7 : m = 7
  · rw [if_pos h7, if_pos h7]; omega
  rw [if_neg h7, if_neg h7]
  by_cases h8 : m = 8
  · rw [if_pos h8, if_pos h8]; omega
  rw [if_neg h8, if_neg h8]
  by_cases h9 : m = 9
  · rw [if_pos h9, if_pos h9]; omega
  rw [if_neg h9, if_neg h9]
  by_cases h10 : m = 10
  · rw [if_pos h10, if_pos h10]; omega
  rw [if_neg h10, if_neg h10]
  omega

/-- The month of day `d` of a year: it is one of the twelve, it starts on or
before `d`, and January and February are the days before day `59 + l`. -/
theorem monthOfDay_spec (d l : Int) (h0 : 0 ≤ d) (hl : l = 0 ∨ l = 1) :
    ∃ m, monthOfDay d l = m ∧ 0 ≤ m ∧ m ≤ 11 ∧ monthStart m l ≤ d ∧
      ((m = 0 ∨ m = 1) → d < 59 + l) ∧ (¬ (m = 0 ∨ m = 1) → 59 + l ≤ d) := by
  unfold monthOfDay
  by_cases h1 : d < 31
  · rw [if_pos h1]
    exact ⟨0, rfl, by omega, by omega, by show (0 : Int) ≤ d; omega, by omega, by omega⟩
  rw [if_neg h1]
  by_cases h2 : d < 59 + l
  · rw [if_pos h2]
    exact ⟨1, rfl, by omega, by omega, by show (31 : Int) ≤ d; omega, by omega, by omega⟩
  rw [if_neg h2]
  by_cases h3 : d < 90 + l
  · rw [if_pos h3]
    exact ⟨2, rfl, by omega, by omega, by show (59 : Int) + l ≤ d; omega, by omega, by omega⟩
  rw [if_neg h3]
  by_cases h4 : d < 120 + l
  · rw [if_pos h4]
    exact ⟨3, rfl, by omega, by omega, by show (90 : Int) + l ≤ d; omega, by omega, by omega⟩
  rw [if_neg h4]
  by_cases h5 : d < 151 + l
  · rw [if_pos h5]
    exact ⟨4, rfl, by omega, by omega, by show (120 : Int) + l ≤ d; omega, by omega, by omega⟩
  rw [if_neg h5]
  by_cases h6 : d < 181 + l
  · rw [if_pos h6]
    exact ⟨5, rfl, by omega, by omega, by show (151 : Int) + l ≤ d; omega, by omega, by omega⟩
  rw [if_neg h6]
  by_cases h7 : d < 212 + l
  · rw [if_pos h7]
    exact ⟨6, rfl, by omega, by omega, by show (181 : Int) + l ≤ d; omega, by omega, by omega⟩
  rw [if_neg h7]
  by_cases h8 : d < 243 + l
  · rw [if_pos h8]
    exact ⟨7, rfl, by omega, by omega, by show (212 : Int) + l ≤ d; omega, by omega, by omega⟩
  rw [if_neg h8]
  by_cases h9 : d < 273 + l
  · rw [if_pos h9]
    exact ⟨8, rfl, by omega, by omega, by show (243 : Int) + l ≤ d; omega, by omega, by omega⟩
  rw [if_neg h9]
  by_cases h10 : d < 304 + l
  · rw [if_pos h10]
    exact ⟨9, rfl, by omega, by omega, by show (273 : Int) + l ≤ d; omega, by omega, by omega⟩
  rw [if_neg h10]
  by_cases h11 : d < 334 + l
  · rw [if_pos h11]
    exact ⟨10, rfl, by omega, by omega, by show (304 : Int) + l ≤ d; omega, by omega, by omega⟩
  rw [if_neg h11]
  exact ⟨11, rfl, by omega, by omega, by show (334 : Int) + l ≤ d; omega, by omega, by omega⟩

theorem MakeDay_of_month (y m dt : Int) (h0 : 0 ≤ m) (h1 : m ≤ 11) :
    MakeDay y m dt =
      DayFromYear y + monthStart m (if DaysInYear y = 366 then 1 else 0) + dt - 1 := by
  have e1 : y + m / 12 = y := by omega
  have e2 : m % 12 = m := by omega
  unfold MakeDay
  simp only [e1, e2]

/-- The day computed by `setFullYear` lies in the requested year. -/
theorem MakeDay_in_year (t y : Int) :
    DayFromYear y ≤ MakeDay y (MonthFromTime t) (DateFromTime t) ∧
      MakeDay y (MonthFromTime t) (DateFromTime t) < DayFromYear (y + 1) := by
  obtain ⟨b0, b1⟩ := DayWithinYear_bounds t
  have hl : InLeapYear t = 0 ∨ InLeapYear t = 1 := leap_cases (YearFromTime t)
  obtain ⟨m, hm, m0, m11, hs, hjf, hmar⟩ := monthOfDay_spec (DayWithinYear t) (InLeapYear t) b0 hl
  have hk := leap_cases y
  have hsucc := DayFromYear_succ y
  have hdays := DaysInYear_leap y
  have hshift := monthStart_shift m (InLeapYear t) (if DaysInYear y = 366 then 1 else 0)
  have hM : MonthFromTime t = m := hm
  have hD : DateFromTime t = DayWithinYear t - monthStart m (InLeapYear t) + 1 := by
    unfold DateFromTime; rw [hM]
  rw [hM, hD, MakeDay_of_month y m _ m0 m11]
  by_cases hc : m = 0 ∨ m = 1
  · rw [if_pos hc] at hshift
    have := hjf hc
    omega
  · rw [if_neg hc] at hshift
    have := hmar hc
    omega

/-- Setting the year a date already has leaves its day unchanged. -/
theorem MakeDay_same_year (t : Int) :
    MakeDay (YearFromTime t) (MonthFromTime t) (DateFromTime t) = Day t := by
  obtain ⟨b0, _⟩ := DayWithinYear_bounds t
  have hl : InLeapYear t = 0 ∨ InLeapYear t = 1 := leap_cases (YearFromTime t)
  obtain ⟨m, hm, m0, m11, _, _, _⟩ := monthOfDay_spec (DayWithinYear t) (InLeapYear t) b0 hl
  have hM : MonthFromTime t = m := hm
  have hD : DateFromTime t = DayWithinYear t - monthStart m (InLeapYear t) + 1 := by
    unfold DateFromTime; rw [hM]
  have hL : (if DaysInYear (YearFromTime t) = 366 then (1 : Int) else 0) = InLeapYear t := rfl
  rw [hM, hD, MakeDay_of_month _ m _ m0 m11, hL]
  unfold DayWithinYear
  omega

theorem Day_MakeDate (day t : Int) : Day (MakeDate day (TimeWithinDay t)) = day := by
  unfold Day MakeDate TimeWithinDay msPerDay
  omega

theorem MakeDate_Day (t : Int) : MakeDate (Day t) (TimeWithinDay t) = t := by
  unfold Day MakeDate TimeWithinDay msPerDay
  omega

/-- In a zone with a constant offset the date reports the year `y` after
`setFullYear(y)`. -/
theorem getFullYear_setFullYear (tza : Int → Bool → Int) (k t y : Int)
    (hk : ∀ u b, tza u b = k) : getFullYear tza (setFullYear tza t y) = y := by
  obtain ⟨h1, h2⟩ := MakeDay_in_year (LocalTime tza t) y
  have e : LocalTime tza (setFullYear tza t y) =
      MakeDate (MakeDay y (MonthFromTime (LocalTime tza t)) (DateFromTime (LocalTime tza t)))
        (TimeWithinDay (LocalTime tza t)) := by
    unfold setFullYear LocalTime UTC
    simp only [hk, sub_add_cancel]
  unfold getFullYear YearFromTime
  rw [e, Day_MakeDate]
  exact YearFromDay_unique h1 h2

/-- In a zone with a constant offset, setting the year a date already has does
not change it. -/
theorem setFullYear_same (tza : Int → Bool → Int) (k t : Int) (hk : ∀ u b, tza u b = k) :
    setFullYear tza t (getFullYear tza t) = t := by
  unfold setFullYear getFullYear
  simp only
  rw [MakeDay_same_year, MakeDate_Day]
  unfold UTC LocalTime
  simp only [hk]
  omega

/-- In a zone with a constant offset a date whose local year is later is a
later date. -/
theorem lt_of_getFullYear_lt (tza : Int → Bool → Int) (k : Int) (hk : ∀ u b, tza u b = k)
    {s t : Int} (h : getFullYear tza s < getFullYear tza t) : s < t := by
  have := lt_of_YearFromTime_lt h
  unfold LocalTime at this
  rw [hk, hk] at this
  omega

/-! ## Decimal strings -/

theorem digitChar_injective {a b : Nat} (ha : a < 10) (hb : b < 10)
    (h : Char.ofNat (48 + a) = Char.ofNat (48 + b)) : a = b := by
  interval_cases a <;> interval_cases b <;> first | rfl | (exact absurd h (by decide))

theorem digitChar_ne_minus {a : Nat} (ha : a < 10) : Char.ofNat (48 + a) ≠ '-' := by
  interval_cases a <;> decide

theorem natToDigits_ne_minus (n : Nat) : ∀ c ∈ natToDigits n, c ≠ '-' := by
  intro c hc
  unfold natToDigits at hc
  split_ifs at hc with h0
  · simp at hc; subst hc; decide
  · simp only [List.mem_map, List.mem_reverse] at hc
    obtain ⟨d, hd, rfl⟩ := hc
    exact digitChar_ne_minus (Nat.digits_lt_base (by norm_num) hd)

theorem map_digitChar_injective : ∀ (l1 l2 : List Nat), (∀ d ∈ l1, d < 10) → (∀ d ∈ l2, d < 10) →
    (l1.map fun d => Char.ofNat (48 + d)) = (l2.map fun d => Char.ofNat (48 + d)) → l1 = l2
  | [], [], _, _, _ => rfl
  | [], _ :: _, _, _, h => by simp at h
  | _ :: _, [], _, _, h => by simp at h
  | a :: l1, b :: l2, h1, h2, h => by
    simp only [List.map_cons, List.cons.injEq] at h
    have hab : a = b :=
      digitChar_injective (h1 a (List.mem_cons_self _ _)) (h2 b (List.mem_cons_self _ _)) h.1
    have htl := map_digitChar_injective l1 l2
      (fun d hd => h1 d (List.mem_cons_of_mem _ hd))
      (fun d hd => h2 d (List.mem_cons_of_mem _ hd)) h.2
    rw [hab, htl]

theorem natToDigits_injective {n m : Nat} (h : natToDigits n = natToDigits m) : n = m := by
  have key : ∀ k : Nat, k ≠ 0 →
      ((Nat.digits 10 k).reverse.map fun d => Char.ofNat (48 + d)) ≠ ['0'] := by
    intro k hk hc
    have hlen := congrArg List.length hc
    simp at hlen
    obtain ⟨d, hd⟩ := List.length_eq_one.mp hlen
    rw [hd] at hc
    simp at hc
    have hdlt : d < 10 := Nat.digits_lt_base (by norm_num) (by rw [hd]; simp)
    have hd0 : d = 0 := digitChar_injective hdlt (by norm_num) hc
    have := Nat.ofDigits_digits 10 k
    rw [hd, hd0] at this
    simp [Nat.ofDigits] at this
    exact hk this.symm
  unfold natToDigits at h
  by_cases hn : n = 0 <;> by_cases hm : m = 0
  · rw [hn, hm]
  · rw [if_pos hn, if_neg hm] at h
    exact absurd h.symm (key m hm)
  · rw [if_neg hn, if_pos hm] at h
    exact absurd h (key n hn)
  · rw [if_neg hn, if_neg hm] at h
    have h2 : (Nat.digits 10 n).reverse = (Nat.digits 10 m).reverse :=
      map_digitChar_injective _ _
        (fun d hd => Nat.digits_lt_base (by norm_num) (List.mem_reverse.mp hd))
        (fun d hd => Nat.digits_lt_base (by norm_num) (List.mem_reverse.mp hd)) h
    exact Nat.digits_inj_iff.mp (List.reverse_injective h2)

/-- Different integers have different decimal representations. -/
theorem numberToString_injective {a b : Int} (h : numberToString a = numberToString b) :
    a = b := by
  unfold numberToString at h
  by_cases ha : a < 0 <;> by_cases hb : b < 0
  · rw [if_pos ha, if_pos hb] at h
    have := natToDigits_injective (List.cons.inj (congrArg String.data h)).2
    omega
  · rw [if_pos ha, if_neg hb] at h
    have hd : '-' :: natToDigits a.natAbs = natToDigits b.natAbs := congrArg String.data h
    have hmem : '-' ∈ natToDigits b.natAbs := by
      rw [← hd]; exact List.mem_cons_self _ _
    exact absurd rfl (natToDigits_ne_minus _ _ hmem)
  · rw [if_neg ha, if_pos hb] at h
    have hd : natToDigits a.natAbs = '-' :: natToDigits b.natAbs := congrArg String.data h
    have hmem : '-' ∈ natToDigits a.natAbs := by
      rw [hd]; exact List.mem_cons_self _ _
    exact absurd rfl (natToDigits_ne_minus _ _ hmem)
  · rw [if_neg ha, if_neg hb] at h
    have := natToDigits_injective (congrArg String.data h)
    omega

theorem natToDigits_ne_nil (n : Nat) : natToDigits n ≠ [] := by
  unfold natToDigits
  split_ifs with h
  · simp
  · simp [Nat.digits_ne_nil_iff_ne_zero, h]

theorem append_left_cancel (p a b : String) (h : p ++ a = p ++ b) : a = b := by
  have h2 := congrArg String.data h
  simp only [String.data_append] at h2
  exact String.ext (List.append_cancel_left h2)

theorem append_ne_empty (p a : String) (hp : p ≠ "") : p ++ a ≠ "" := by
  intro h
  have h2 := congrArg String.data h
  simp only [String.data_append] at h2
  have h3 : p.data = [] := (List.append_eq_nil.mp h2).1
  exact hp (String.ext h3)

/-! ## The client certificate, field by field -/

theorem clientCert_serialNumber {Pub Priv Sig : Type} (F : Forge Pub Priv Sig)
    (ca : CAState Pub Priv Sig) (inp : IssueInputs Pub Priv) (username : String) :
    (generateClientCertificate F ca inp username).clientCert.serialNumber =
      numberToString inp.nowSerial := rfl

theorem clientCert_validity {Pub Priv Sig : Type} (F : Forge Pub Priv Sig)
    (ca : CAState Pub Priv Sig) (inp : IssueInputs Pub Priv) (username : String) :
    (generateClientCertificate F ca inp username).clientCert.validity =
      ⟨inp.nowNotBefore,
        setFullYear F.localTZA inp.nowNotAfter (getFullYear F.localTZA inp.nowNotBefore + 1)⟩ :=
  rfl

theorem clientCert_subject {Pub Priv Sig : Type} (F : Forge Pub Priv Sig)
    (ca : CAState Pub Priv Sig) (inp : IssueInputs Pub Priv) (username : String) :
    (generateClientCertificate F ca inp username).clientCert.subject =
      [⟨"commonName", username⟩] := rfl

theorem clientCert_log {Pub Priv Sig : Type} (F : Forge Pub Priv Sig)
    (ca : CAState Pub Priv Sig) (inp : IssueInputs Pub Priv) (username : String) :
    (generateClientCertificate F ca inp username).log =
      ["Generating key pair for " ++ username ++ "...", "Signing certificate with CA..."] :=
  rfl

theorem usernameOr_of_nonempty (u fallback : String) (h : u ≠ "") :
    usernameOr (some u) fallback = u := by
  unfold usernameOr
  simp [h]

theorem usernameOr_of_empty (q : Option String) (fallback : String)
    (h : q = none ∨ q = some "") : usernameOr q fallback = fallback := by
  rcases h with h | h <;> subst h <;> simp [usernameOr]

theorem issueAll_serials {Pub Priv Sig : Type} (F : Forge Pub Priv Sig)
    (ca : CAState Pub Priv Sig) (calls : List (IssueInputs Pub Priv × String)) :
    (issueAll F ca calls).map (fun r => r.clientCert.serialNumber) =
      (calls.map fun c => c.1.nowSerial).map numberToString := by
  unfold issueAll
  simp only [List.map_map]
  rfl

/-! ## Properties of the issued certificates -/

/-- C1: the issuer of the client certificate built by `generateClientCertificate`
is the subject of the loaded CA certificate: the same attributes with the same
values in the same order, for every username and every CA. -/
theorem issuer_eq_ca_subject {Pub Priv Sig : Type} (F : Forge Pub Priv Sig)
    (ca : CAState Pub Priv Sig) (inp : IssueInputs Pub Priv) (username : String) :
    (generateClientCertificate F ca inp username).clientCert.issuer = ca.caCert.subject :=
  rfl

/-- C2: the certificate returned is the PEM text of the certificate object
built, and the key returned is the PEM text of the fresh client private key.
That object is signed with the CA private key of the process state, with
SHA-256, over its to-be-signed part, which holds the fresh client public key
and the fields set on lines 25-61; hence, for every signature scheme whose
`verify` accepts what `sign` produces under a matching key pair, checking the
signature with a public key matching the CA private key succeeds. -/
theorem signed_with_ca_key {Pub Priv Sig : Type} (F : Forge Pub Priv Sig)
    (ca : CAState Pub Priv Sig) (inp : IssueInputs Pub Priv) (username : String)
    (verify : Pub → MdAlg → TBSCertificate Pub → Sig → Bool)
    (Matching : Pub → Priv → Prop)
    (hscheme : ∀ pub priv md msg, Matching pub priv →
      verify pub md msg (F.sign priv md msg) = true)
    (caPub : Pub) (hca : Matching caPub ca.caKey) :
    (generateClientCertificate F ca inp username).certificate =
      F.certificateToPem (generateClientCertificate F ca inp username).clientCert ∧
    (generateClientCertificate F ca inp username).privateKey =
      F.privateKeyToPem inp.clientKeys.privateKey ∧
    (generateClientCertificate F ca inp username).clientCert.md = some MdAlg.sha256 ∧
    getTBSCertificate (generateClientCertificate F ca inp username).clientCert =
      { version := 2,
        serialNumber := numberToString inp.nowSerial,
        signatureMd := some MdAlg.sha256,
        issuer := ca.caCert.subject,
        validity := ⟨inp.nowNotBefore,
          setFullYear F.localTZA inp.nowNotAfter (getFullYear F.localTZA inp.nowNotBefore + 1)⟩,
        subject := [⟨"commonName", username⟩],
        publicKey := some inp.clientKeys.publicKey,
        extensions :=
          [ ⟨"basicConstraints", [("cA", false)]⟩,
            ⟨"keyUsage", [("digitalSignature", true), ("keyEncipherment", true)]⟩,
            ⟨"extKeyUsage", [("clientAuth", true)]⟩ ] } ∧
    (generateClientCertificate F ca inp username).clientCert.signature =
      some (F.sign ca.caKey MdAlg.sha256
        (getTBSCertificate (generateClientCertificate F ca inp username).clientCert)) ∧
    (∃ s, (generateClientCertificate F ca inp username).clientCert.signature = some s ∧
      verify caPub MdAlg.sha256
        (getTBSCertificate (generateClientCertificate F ca inp username).clientCert) s = true) ∧
    (generateClientCertificate F ca inp username).clientCert.publicKey =
      some inp.clientKeys.publicKey :=
  ⟨rfl, rfl, rfl, rfl, rfl, ⟨_, rfl, hscheme _ _ _ _ hca⟩, rfl⟩

/-- Witness of C2 on the concrete instance, whose public key for the private
key 7 is 7. -/
theorem signed_with_ca_key_witness :
    (∀ (pub priv : Nat) (md : MdAlg) (msg : TBSCertificate Nat), pub = priv →
      toyVerify pub md msg (toyForge.sign priv md msg) = true) ∧
    (7 : Nat) = toyCA.caKey ∧
    (∃ s, (generateClientCertificate toyForge toyCA yearEndInputs "alice").clientCert.signature
        = some s ∧
      toyVerify 7 MdAlg.sha256
        (getTBSCertificate
          (generateClientCertificate toyForge toyCA yearEndInputs "alice").clientCert) s = true) ∧
    (generateClientCertificate toyForge toyCA yearEndInputs "alice").clientCert.publicKey =
      some 11 :=
  have hs : ∀ (pub priv : Nat) (md : MdAlg) (msg : TBSCertificate Nat), pub = priv →
      toyVerify pub md msg (toyForge.sign priv md msg) = true := by
    intro pub priv md msg h
    subst h
    simp [toyVerify, toyForge]
  have h := signed_with_ca_key toyForge toyCA yearEndInputs "alice" toyVerify
    (fun pub priv => pub = priv) hs 7 rfl
  ⟨hs, rfl, h.2.2.2.2.2.1, h.2.2.2.2.2.2⟩

/-- C6: the certificate returned is the PEM text of the certificate object
built, and the extensions of that object are exactly basicConstraints with cA
false, keyUsage with digitalSignature and keyEncipherment, and extKeyUsage with
clientAuth; no extension carries keyCertSign or cRLSign; and the list is the
same for every username (and every other input). -/
theorem client_extensions {Pub Priv Sig : Type} (F : Forge Pub Priv Sig)
    (ca : CAState Pub Priv Sig) (inp : IssueInputs Pub Priv) (username : String) :
    (generateClientCertificate F ca inp username).certificate =
      F.certificateToPem (generateClientCertificate F ca inp username).clientCert ∧
    (generateClientCertificate F ca inp username).clientCert.extensions =
      [ ⟨"basicConstraints", [("cA", false)]⟩,
        ⟨"keyUsage", [("digitalSignature", true), ("keyEncipherment", true)]⟩,
        ⟨"extKeyUsage", [("clientAuth", true)]⟩ ] ∧
    (∀ e ∈ (generateClientCertificate F ca inp username).clientCert.extensions,
      e.flag "cA" = false ∧ e.flag "keyCertSign" = false ∧ e.flag "cRLSign" = false ∧
      (e.name = "keyUsage" →
        e.flag "digitalSignature" = true ∧ e.flag "keyEncipherment" = true) ∧
      (e.name = "extKeyUsage" → e.flag "clientAuth" = true)) ∧
    (∀ (inp2 : IssueInputs Pub Priv) (username2 : String),
      (generateClientCertificate F ca inp2 username2).clientCert.extensions =
        (generateClientCertificate F ca inp username).clientCert.extensions) := by
  refine ⟨rfl, rfl, ?_, fun _ _ => rfl⟩
  intro e he
  have he2 : e ∈ [ (⟨"basicConstraints", [("cA", false)]⟩ : Extension),
        ⟨"keyUsage", [("digitalSignature", true), ("keyEncipherment", true)]⟩,
        ⟨"extKeyUsage", [("clientAuth", true)]⟩ ] := he
  simp only [List.mem_cons, List.mem_singleton, List.not_mem_nil, or_false] at he2
  rcases he2 with h | h | h <;> subst h <;> decide

/-- Witness of C6: the keyUsage extension of a concrete certificate. -/
theorem client_extensions_witness :
    (⟨"keyUsage", [("digitalSignature", true), ("keyEncipherment", true)]⟩ : Extension) ∈
      (generateClientCertificate toyForge toyCA yearEndInputs "alice").clientCert.extensions ∧
    (⟨"keyUsage", [("digitalSignature", true), ("keyEncipherment", true)]⟩ : Extension).flag
      "keyCertSign" = false ∧
    (⟨"keyUsage", [("digitalSignature", true), ("keyEncipherment", true)]⟩ : Extension).flag
      "digitalSignature" = true :=
  have hmem : (⟨"keyUsage", [("digitalSignature", true), ("keyEncipherment", true)]⟩ : Extension) ∈
      (generateClientCertificate toyForge toyCA yearEndInputs "alice").clientCert.extensions := by
    rw [(client_extensions toyForge toyCA yearEndInputs "alice").2.1]
    simp
  have h := (client_extensions toyForge toyCA yearEndInputs "alice").2.2.1 _ hmem
  ⟨hmem, h.2.1, (h.2.2.2.1 rfl).1⟩

theorem readDnValue_units (s : String) :
    readDnValue (dnValueUnits s) = some s ↔ ∀ c ∈ s.data, c.toNat < 256 := by
  unfold readDnValue dnValueUnits
  constructor
  · intro h c hc
    by_contra hlt
    have hall : ((s.data.map Char.toNat).all fun u => decide (u < 256)) = false := by
      rw [Bool.eq_false_iff]
      intro ht
      rw [List.all_eq_true] at ht
      have := ht c.toNat (List.mem_map.mpr ⟨c, hc, rfl⟩)
      exact hlt (by simpa using this)
    rw [hall] at h
    simp at h
  · intro h
    have hall : ((s.data.map Char.toNat).all fun u => decide (u < 256)) = true := by
      rw [List.all_eq_true]
      intro u hu
      obtain ⟨c, hc, rfl⟩ := List.mem_map.mp hu
      simpa using h c hc
    rw [hall]
    simp [List.map_map, Function.comp_def]

theorem decodeName_single (n v : String) :
    decodeName (encodeName [⟨n, v⟩]) = some [⟨n, v⟩] ↔ ∀ c ∈ v.data, c.toNat < 256 := by
  rw [← readDnValue_units]
  unfold encodeName
  simp only [List.map_cons, List.map_nil, decodeName]
  cases h : readDnValue (dnValueUnits v) with
  | none => simp
  | some w => simp

/-- C7, as the code does it: the subject of the certificate object built is the
single attribute commonName with the username as it was passed, and the
certificate returned is the PEM text of that object; the encoded commonName
reads back as the username exactly when no character of the username is above
U+00FF; and for a request whose username parameter is one non-empty string the
handler calls `generateClientCertificate` with that string and echoes it in the
response. -/
theorem subject_is_username {Pub Priv Sig : Type} (F : Forge Pub Priv Sig)
    (ca : CAState Pub Priv Sig) (now : Int) (inp : IssueInputs Pub Priv) (thrown : String)
    (username : String) :
    (generateClientCertificate F ca inp username).clientCert.subject =
      [⟨"commonName", username⟩] ∧
    (generateClientCertificate F ca inp username).certificate =
      F.certificateToPem (generateClientCertificate F ca inp username).clientCert ∧
    (decodeName (encodeName (generateClientCertificate F ca inp username).clientCert.subject) =
        some [⟨"commonName", username⟩] ↔ ∀ c ∈ username.data, c.toNat < 256) ∧
    (username ≠ "" →
      certificateRequest F ca now inp thrown (QueryValue.text username) =
        Outcome.sent (certificateHandler F ca now inp (some username)) ∧
      (certificateHandler F ca now inp (some username)).username = username ∧
      (certificateHandler F ca now inp (some username)).issued =
        generateClientCertificate F ca inp username ∧
      (certificateHandler F ca now inp (some username)).response.username = username ∧
      (certificateHandler F ca now inp (some username)).response.certificate =
        (generateClientCertificate F ca inp username).certificate) := by
  refine ⟨rfl, rfl, ?_, fun h => ?_⟩
  · rw [clientCert_subject]
    exact decodeName_single _ _
  · have hu := usernameOr_of_nonempty username ("client_" ++ numberToString now) h
    refine ⟨rfl, ?_⟩
    unfold certificateHandler
    simp only [hu]
    exact ⟨trivial, trivial, trivial, trivial⟩

/-- Witness of C7: the request for "alice". -/
theorem subject_is_username_witness :
    "alice" ≠ "" ∧
    (generateClientCertificate toyForge toyCA yearEndInputs "alice").clientCert.subject =
      [⟨"commonName", "alice"⟩] ∧
    certificateRequest toyForge toyCA 1735689599998 yearEndInputs "TypeError"
        (QueryValue.text "alice") =
      Outcome.sent (certificateHandler toyForge toyCA 1735689599998 yearEndInputs (some "alice")) ∧
    (certificateHandler toyForge toyCA 1735689599998 yearEndInputs (some "alice")).response.username
      = "alice" :=
  have h := subject_is_username toyForge toyCA 1735689599998 yearEndInputs "TypeError" "alice"
  ⟨by decide, h.1, (h.2.2.2 (by decide)).1, (h.2.2.2 (by decide)).2.2.2.1⟩

/-- C7 fails as stated: for the username "日本" the handler answers with
success, but the commonName of the encoded certificate cannot be read back;
and for a request with the username parameter given twice the handler answers
with status 500 and echoes no username. -/
theorem username_not_carried :
    (∃ h, certificateRequest toyForge toyCA 1735689599998 yearEndInputs "TypeError"
        (QueryValue.text "日本") = Outcome.sent h ∧ h.response.success = true) ∧
    decodeName (encodeName
      (generateClientCertificate toyForge toyCA yearEndInputs "日本").clientCert.subject) = none ∧
    certificateRequest toyForge toyCA 1735689599998 yearEndInputs "TypeError"
        (QueryValue.many ["alice", "bob"]) =
      Outcome.failed 500
        { success := false, error := "Failed to generate certificate", message := "TypeError" }
        [ "Generating certificate for: alice,bob",
          "Generating key pair for alice,bob...",
          "Signing certificate with CA...",
          "Error generating certificate: TypeError" ] := by
  refine ⟨⟨_, rfl, rfl⟩, by decide, ?_⟩
  have hjoin : String.intercalate "," ["alice", "bob"] = "alice,bob" := by decide
  unfold certificateRequest
  simp only [hjoin]
  have h1 : "Generating certificate for: " ++ "alice,bob" =
      "Generating certificate for: alice,bob" := by decide
  have h2 : "Generating key pair for " ++ "alice,bob" ++ "..." =
      "Generating key pair for alice,bob..." := by decide
  have h3 : "Error generating certificate: " ++ "TypeError" =
      "Error generating certificate: TypeError" := by decide
  rw [h1, h2, h3]

/-! ## Serial numbers and fallback names -/

/-- C5, as the code does it: the serial numbers of a sequence of calls are
pairwise distinct exactly when the values of `Date.now()` read by the calls are
pairwise distinct. -/
theorem serials_nodup_iff {Pub Priv Sig : Type} (F : Forge Pub Priv Sig)
    (ca : CAState Pub Priv Sig) (calls : List (IssueInputs Pub Priv × String)) :
    ((issueAll F ca calls).map fun r => r.clientCert.serialNumber).Nodup ↔
      (calls.map fun c => c.1.nowSerial).Nodup := by
  rw [issueAll_serials]
  constructor
  · exact List.Nodup.of_map _
  · exact List.Nodup.map (fun _ _ h => numberToString_injective h)

/-- C5 fails as stated: a loop of 1000 calls that issues four certificates per
millisecond yields 1000 certificates whose serial numbers are not pairwise
distinct. -/
theorem serials_collide_in_tight_loop :
    (issueAll toyForge toyCA tightLoop).length = 1000 ∧
    ¬ ((issueAll toyForge toyCA tightLoop).map fun r => r.clientCert.serialNumber).Nodup := by
  constructor
  · simp [issueAll, tightLoop]
  · intro h
    rw [issueAll_serials] at h
    have h2 := List.Nodup.of_map _ h
    unfold tightLoop at h2
    rw [List.map_map] at h2
    have h3 := List.inj_on_of_nodup_map h2 (x := 0) (by simp) (y := 1) (by simp)
      (by simp [tightLoopCall])
    exact absurd h3 (by decide)

theorem handler_subject_of_empty {Pub Priv Sig : Type} (F : Forge Pub Priv Sig)
    (ca : CAState Pub Priv Sig) (now : Int) (inp : IssueInputs Pub Priv) (q : Option String)
    (h : q = none ∨ q = some "") :
    (certificateHandler F ca now inp q).issued.clientCert.subject =
      [⟨"commonName", "client_" ++ numberToString now⟩] := by
  unfold certificateHandler
  simp only [usernameOr_of_empty q _ h]
  rfl

/-- C8, as the code does it: for a request without a username (missing or
empty) the commonName is `client_` followed by the decimal value of
`Date.now()`, hence non-empty, and two such requests whose clock values differ
get different commonNames. -/
theorem fallback_commonName {Pub Priv Sig : Type} (F : Forge Pub Priv Sig)
    (ca : CAState Pub Priv Sig) (now1 now2 : Int) (inp1 inp2 : IssueInputs Pub Priv)
    (q1 q2 : Option String) (h1 : q1 = none ∨ q1 = some "") (h2 : q2 = none ∨ q2 = some "")
    (hne : now1 ≠ now2) :
    (certificateHandler F ca now1 inp1 q1).issued.clientCert.subject =
      [⟨"commonName", "client_" ++ numberToString now1⟩] ∧
    "client_" ++ numberToString now1 ≠ "" ∧
    (certificateHandler F ca now1 inp1 q1).issued.clientCert.subject ≠
      (certificateHandler F ca now2 inp2 q2).issued.clientCert.subject := by
  have e1 := handler_subject_of_empty F ca now1 inp1 q1 h1
  have e2 := handler_subject_of_empty F ca now2 inp2 q2 h2
  refine ⟨e1, append_ne_empty _ _ (by decide), ?_⟩
  rw [e1, e2]
  intro h
  simp only [List.cons.injEq, Attr.mk.injEq, true_and, and_true] at h
  exact hne (numberToString_injective (append_left_cancel _ _ _ h))

/-- Witness of C8: two requests without a username, one millisecond apart. -/
theorem fallback_commonName_witness :
    ((none : Option String) = none ∨ (none : Option String) = some "") ∧
    ((some "" : Option String) = none ∨ (some "" : Option String) = some "") ∧
    (1735689600000 : Int) ≠ 1735689600001 ∧
    (certificateHandler toyForge toyCA 1735689600000 yearEndInputs none).issued.clientCert.subject
      ≠ (certificateHandler toyForge toyCA 1735689600001 yearEndInputs
          (some "")).issued.clientCert.subject :=
  ⟨Or.inl rfl, Or.inr rfl, by decide,
   (fallback_commonName toyForge toyCA 1735689600000 1735689600001 yearEndInputs yearEndInputs
      none (some "") (Or.inl rfl) (Or.inr rfl) (by decide)).2.2⟩

/-- C8 fails as stated: two different requests without a username that are
handled in the same millisecond get the same commonName. -/
theorem fallback_collides_in_same_millisecond :
    yearEndInputs.clientKeys.publicKey ≠ otherClientInputs.clientKeys.publicKey ∧
    (certificateHandler toyForge toyCA 1735689600000 yearEndInputs none).issued.clientCert.subject
      = (certificateHandler toyForge toyCA 1735689600000 otherClientInputs
          (some "")).issued.clientCert.subject := by
  refine ⟨by decide, ?_⟩
  rw [handler_subject_of_empty _ _ _ _ _ (Or.inl rfl),
    handler_subject_of_empty _ _ _ _ _ (Or.inr rfl)]

/-! ## Validity -/

/-- C3, at the turn of a year: with the clock at 2024-12-31T23:59:59.999Z on
line 29 and at 2025-01-01T00:00:00.000Z on line 30 the certificate is valid for
one millisecond, not for one year. -/
theorem validity_at_year_end :
    (generateClientCertificate toyForge toyCA yearEndInputs "alice").clientCert.validity =
      ⟨1735689599999, 1735689600000⟩ ∧
    (generateClientCertificate toyForge toyCA yearEndInputs
        "alice").clientCert.validity.notAfter -
      (generateClientCertificate toyForge toyCA yearEndInputs
        "alice").clientCert.validity.notBefore = 1 := by
  decide

/-- On the leap day 2024-02-29 the certificate ends on 2025-03-01, at the same
time of day: 366 days later. -/
theorem validity_on_leap_day :
    (generateClientCertificate toyForge toyCA leapDayInputs "alice").clientCert.validity =
      ⟨1709210096789, 1740832496789⟩ ∧
    (1740832496789 : Int) - 1709210096789 = 366 * msPerDay := by
  decide

/-- C4, at the turn of a year: with the readings of `yearEndInputs` (which are
non-decreasing) notAfter is the instant of the second reading itself, so one
millisecond later, before line 65 has signed the certificate, the time of
issuance is already past notAfter. -/
theorem expired_during_issuance :
    yearEndInputs.nowNotBefore ≤ yearEndInputs.nowNotAfter ∧
    (generateClientCertificate toyForge toyCA yearEndInputs "alice").clientCert.validity.notAfter =
      yearEndInputs.nowNotAfter ∧
    yearEndInputs.nowNotAfter ≤ 1735689600001 ∧
    ¬ ((1735689600001 : Int) ≤
        (generateClientCertificate toyForge toyCA yearEndInputs
          "alice").clientCert.validity.notAfter) := by
  decide

/-- In a zone with a constant offset notAfter lies in the calendar year after
the one of notBefore, hence is later than notBefore. -/
theorem notBefore_lt_notAfter {Pub Priv Sig : Type} (F : Forge Pub Priv Sig)
    (ca : CAState Pub Priv Sig) (inp : IssueInputs Pub Priv) (username : String) (k : Int)
    (hk : ∀ u b, F.localTZA u b = k) :
    (generateClientCertificate F ca inp username).clientCert.validity.notBefore <
      (generateClientCertificate F ca inp username).clientCert.validity.notAfter := by
  rw [clientCert_validity]
  simp only
  have hy := getFullYear_setFullYear F.localTZA k inp.nowNotAfter
    (getFullYear F.localTZA inp.nowNotBefore + 1) hk
  exact lt_of_getFullYear_lt F.localTZA k hk (by rw [hy]; omega)

/-! ## The CA script -/

theorem caCert_validity {Pub Priv Sig : Type} (F : Forge Pub Priv Sig)
    (inp : CAInputs Pub Priv) :
    (generateCA F inp).caCert.validity =
      ⟨inp.nowNotBefore,
        setFullYear F.localTZA inp.nowNotAfter (getFullYear F.localTZA inp.nowNotBefore + 10)⟩ :=
  rfl

/-- The CA certificate is self-signed and CA-capable; its notAfter is the
second clock reading with the year set to notBefore's year plus ten, which is
notBefore moved ten calendar years forward when the two readings coincide. -/
theorem generateCA_self_signed {Pub Priv Sig : Type} (F : Forge Pub Priv Sig)
    (inp : CAInputs Pub Priv) :
    (generateCA F inp).caCert.subject = caAttrs ∧
    (generateCA F inp).caCert.issuer = (generateCA F inp).caCert.subject ∧
    (generateCA F inp).caCert.publicKey = some inp.caKeys.publicKey ∧
    (generateCA F inp).caCert.md = some MdAlg.sha256 ∧
    (generateCA F inp).caCert.signature =
      some (F.sign inp.caKeys.privateKey MdAlg.sha256
        (getTBSCertificate (generateCA F inp).caCert)) ∧
    (generateCA F inp).caCert.extensions =
      [ ⟨"basicConstraints", [("cA", true), ("critical", true)]⟩,
        ⟨"keyUsage", [("keyCertSign", true), ("cRLSign", true), ("critical", true)]⟩,
        ⟨"subjectKeyIdentifier", []⟩ ] ∧
    (inp.nowNotAfter = inp.nowNotBefore →
      (generateCA F inp).caCert.validity.notAfter =
        addYears F.localTZA (generateCA F inp).caCert.validity.notBefore 10) := by
  refine ⟨rfl, rfl, rfl, rfl, rfl, rfl, fun h => ?_⟩
  rw [caCert_validity]
  simp only [addYears, h]

/-- C9, at the turn of a year: with the clock at 2024-12-31T23:59:59.999Z on
line 18 and at 2025-01-01T00:00:00.000Z on line 19 the CA certificate ends on
2034-01-01T00:00:00.000Z, while notBefore moved ten calendar years forward is
2034-12-31T23:59:59.999Z. -/
theorem ca_expiry_at_year_end :
    (generateCA toyForge yearEndCAInputs).caCert.validity =
      ⟨1735689599999, 2019686400000⟩ ∧
    addYears toyForge.localTZA (generateCA toyForge yearEndCAInputs).caCert.validity.notBefore 10
      = 2051222399999 ∧
    (generateCA toyForge yearEndCAInputs).caCert.validity.notAfter ≠
      addYears toyForge.localTZA
        (generateCA toyForge yearEndCAInputs).caCert.validity.notBefore 10 := by
  decide

/-! ## Where private keys go -/

theorem generateCA_files {Pub Priv Sig : Type} (F : Forge Pub Priv Sig)
    (inp : CAInputs Pub Priv) :
    (generateCA F inp).files =
      [("demo-ca.crt", F.certificateToPem (generateCA F inp).caCert),
       ("demo-ca.key", F.privateKeyToPem inp.caKeys.privateKey)] := rfl

theorem generateCA_log_mentions_key {Pub Priv Sig : Type} (F : Forge Pub Priv Sig)
    (inp : CAInputs Pub Priv) :
    Mentions (generateCA F inp).log (F.privateKeyToPem inp.caKeys.privateKey) := by
  refine ⟨F.privateKeyToPem inp.caKeys.privateKey, ?_, List.infix_refl _⟩
  simp [generateCA]

/-- C10 fails as stated: a run of the CA script prints the PEM text of the CA
private key to the console and writes it to the file `demo-ca.key`. -/
theorem ca_key_logged_and_written :
    Mentions (generateCA toyForge yearEndCAInputs).log
      (toyForge.privateKeyToPem yearEndCAInputs.caKeys.privateKey) ∧
    ("demo-ca.key", toyForge.privateKeyToPem yearEndCAInputs.caKeys.privateKey) ∈
      (generateCA toyForge yearEndCAInputs).files := by
  refine ⟨generateCA_log_mentions_key _ _, ?_⟩
  rw [generateCA_files]
  simp

/-- C10, as the code does it: the CA script writes exactly the two files
`demo-ca.crt` and `demo-ca.key`, the second holding the PEM text of the CA
private key, and prints that text; the console output of
`generateClientCertificate` is two lines fixed by the username, the same
whatever the client key pair, the CA state and the primitives are. -/
theorem key_handling {Pub Priv Sig : Type} (F : Forge Pub Priv Sig)
    (cainp : CAInputs Pub Priv) (ca : CAState Pub Priv Sig) (inp : IssueInputs Pub Priv)
    (username : String) :
    (generateCA F cainp).files =
      [("demo-ca.crt", F.certificateToPem (generateCA F cainp).caCert),
       ("demo-ca.key", F.privateKeyToPem cainp.caKeys.privateKey)] ∧
    Mentions (generateCA F cainp).log (F.privateKeyToPem cainp.caKeys.privateKey) ∧
    (generateClientCertificate F ca inp username).log =
      ["Generating key pair for " ++ username ++ "...", "Signing certificate with CA..."] ∧
    (∀ (F2 : Forge Pub Priv Sig) (ca2 : CAState Pub Priv Sig) (inp2 : IssueInputs Pub Priv),
      (generateClientCertificate F2 ca2 inp2 username).log =
        (generateClientCertificate F ca inp username).log) :=
  ⟨generateCA_files F cainp, generateCA_log_mentions_key F cainp, clientCert_log F ca inp username,
   fun _ _ _ => rfl⟩

end CertIssuer
